import Mathlib

/-!
Verification of the TeX reference-extraction pipeline of
`ads_ref_extract/tex.py` (arXiv reference extractor).

The Python source is shallowly embedded: text is `List Char` (one physical
line never contains a newline; whole text blobs may), files are lists of
lines, and every scanner/state machine below is a direct executable
translation of the corresponding Python function.  Python functions that can
fall off their end (returning `None` which then crashes the caller) are
modelled with `Option`, `none` standing for the raised exception.

Python regexes are translated to character-level matchers that implement the
regex semantics on the concrete patterns appearing in the source
(case-insensitive literals, `\s` runs, word boundaries, non-greedy scans).
-/

namespace ArxivTex

/-- Python `\s` (ASCII whitespace as used by `str.split` and the regexes). -/
def isPySpace (c : Char) : Bool :=
  c = ' ' || c = '\t' || c = '\n' || c = '\x0b' || c = '\x0c' || c = '\r'

/-- Membership in `_HEX_CHARS = "0123456789abcdefABCDEF"` (tex.py line 218). -/
def isHexChar (c : Char) : Bool :=
  ('0' ≤ c && c ≤ '9') || ('a' ≤ c && c ≤ 'f') || ('A' ≤ c && c ≤ 'F')

/-- Regex word character (`\w`, ASCII) used to decide `\b` boundaries. -/
def isWordChar (c : Char) : Bool :=
  ('0' ≤ c && c ≤ '9') || ('a' ≤ c && c ≤ 'z') || ('A' ≤ c && c ≤ 'Z') || c = '_'

/-- Case-insensitive character comparison for `re.IGNORECASE` literals. -/
def ciEq (a b : Char) : Bool := a.toLower = b.toLower

/-- Match a case-insensitive literal at the head of the text, returning the
remainder on success. -/
def matchCILit : List Char → List Char → Option (List Char)
  | [], rest => some rest
  | _ :: _, [] => none
  | p :: ps, c :: cs => if ciEq p c then matchCILit ps cs else none

/-- Match a case-sensitive literal at the head of the text. -/
def matchLit : List Char → List Char → Option (List Char)
  | [], rest => some rest
  | _ :: _, [] => none
  | p :: ps, c :: cs => if p = c then matchLit ps cs else none

/-- Index of the first occurrence of a character (Python `str.index`). -/
def firstIdxOf (c : Char) : List Char → Option Nat
  | [] => none
  | a :: t => if a = c then some 0 else (firstIdxOf c t).map (· + 1)

/-- Whether a (case-sensitive) literal occurs as a contiguous subsequence
anywhere in the text (Python `pat in line`). -/
def containsSeq (pat : List Char) : List Char → Bool
  | [] => (matchLit pat []).isSome
  | c :: t => (matchLit pat (c :: t)).isSome || containsSeq pat t

/-- Internal scan of `_split_on_delimited_prefix` (tex.py lines 231-259).
`fellOff` is the Python path where the `for` loop exhausts the text without
returning, so the function implicitly returns `None`. -/
inductive SplitScanRes
  | fellOff
  | noPre
  | splitAt (i : Nat)
deriving DecidableEq, Repr

/-- Direct translation of the loop of `_split_on_delimited_prefix`. -/
def splitScan (oc cc : Char) : Nat → Nat → List Char → SplitScanRes
  | _, _, [] => .fellOff
  | depth, idx, c :: t =>
    if depth ≠ 0 then
      let depth' := if c = oc then depth + 1 else if c = cc then depth - 1 else depth
      if depth' = 0 then .splitAt idx else splitScan oc cc depth' (idx + 1) t
    else if isPySpace c then splitScan oc cc 0 (idx + 1) t
    else if c = oc then splitScan oc cc 1 (idx + 1) t
    else .noPre

/-- Embedding of `_split_on_delimited_prefix(text, open, close)`.  The Python
function is annotated `-> Tuple[str, str]` but can fall off its loop and
return `None` (unbalanced opener, or text that is empty / all whitespace);
that path is `none` here and makes the caller's tuple unpacking raise. -/
def splitOnDelimited (text : List Char) (oc cc : Char) : Option (List Char × List Char) :=
  match splitScan oc cc 0 0 text with
  | .fellOff => none
  | .noPre => some ([], text)
  | .splitAt i => some (text.take (i + 1), text.drop (i + 1))

/-! Emphasis normalization (`_EMPH_REGEXES`, tex.py lines 223-228): each
pattern is a literal opener followed by a non-greedy scan to the next `}`,
replaced by the content in straight double quotes. -/

/-- One `re.sub` pass for a pattern `LITERAL(.*?)\x7d`: scan left to right,
replacing each occurrence of the literal opener plus minimal content plus a
closing brace by the quoted content.  `fuel` bounds the scan (one unit per
consumed character, so `text.length` always suffices). -/
def subEmphGo (pre : List Char) : Nat → List Char → List Char
  | 0, rest => rest
  | _ + 1, [] => []
  | fuel + 1, c :: t =>
    match matchLit pre (c :: t) with
    | some rest =>
      match firstIdxOf '\x7d' rest with
      | some i => '"' :: rest.take i ++ '"' :: subEmphGo pre fuel (rest.drop (i + 1))
      | none => c :: subEmphGo pre fuel t
    | none => c :: subEmphGo pre fuel t

/-- One emphasis pattern substituted throughout the text. -/
def subEmphOne (pre text : List Char) : List Char := subEmphGo pre text.length text

/-- All four `_EMPH_REGEXES` applied in source order. -/
def subAllEmph (text : List Char) : List Char :=
  subEmphOne ("\\textit\x7b".toList)
    (subEmphOne ("\\emph\x7b".toList)
      (subEmphOne ("\x7b\\it ".toList)
        (subEmphOne ("\x7b\\em ".toList) text)))

/-! The `_REF_EXTRA_OPENING` / `_REF_EXTRA_CLOSING` boilerplate (tex.py lines
300-313).  The opening raw string starts with a newline, so a tagged entry is
printed as: first line `\TAG `, eleven boilerplate lines, and one final line
carrying the opening marker, the entry text and the closing marker. -/

/-- The eleven full boilerplate lines inside `_REF_EXTRA_OPENING`. -/
def refExtraOpeningLines : List (List Char) :=
  [("\\newpage").toList,
   ("\\providecommand\x7b\\onecolumn\x7d\x7b\\relax\x7d").toList,
   ("\\onecolumn").toList,
   ("\\section*\x7b\x7d").toList,
   ("\\sloppy").toList,
   ("\\raggedright").toList,
   ("\\hyphenpenalty=10000").toList,
   ("\\exhyphenpenalty=10000").toList,
   ("\\def\\UrlBreaks\x7b\x7d").toList,
   ("\\def\\UrlBigBreaks\x7b\x7d").toList,
   ("\\def\\UrlNoBreaks\x7b\\do\\:\\do\\-\x7d").toList]

/-- Final segment of `_REF_EXTRA_OPENING`: the rendered opening marker. -/
def refOpenTag : List Char := ("\x7b\\textless\x7dr\x7b\\textgreater\x7d").toList

/-- The closing marker `_REF_EXTRA_CLOSING`. -/
def refCloseTag : List Char := ("\x7b\\textless\x7d/r\x7b\\textgreater\x7d").toList

/-- Embedding of `TexSourceItem.tag_ref` (tex.py lines 472-505): emphasis
normalization, prefix stripping by reference type, and the printed block as a
list of output lines.  `none` models the `TypeError` raised when
`_split_on_delimited_prefix` returns `None` and the tuple unpacking fails. -/
def tagRefLines (tag text refType : List Char) : Option (List (List Char)) :=
  let text0 := subAllEmph text
  let build := fun (tg tx : List Char) =>
    (('\\' :: tg ++ [' ']) :: refExtraOpeningLines) ++ [refOpenTag ++ ' ' :: tx ++ ' ' :: refCloseTag]
  if refType = ("bibitem").toList then
    match splitOnDelimited text0 '[' ']' with
    | none => none
    | some (l1, t1) =>
      match splitOnDelimited t1 '\x7b' '\x7d' with
      | none => none
      | some (l2, t2) => some (build (tag ++ l1 ++ l2) t2)
  else if refType = ("reference").toList then
    match splitOnDelimited text0 '\x7b' '\x7d' with
    | none => none
    | some (l1, t1) => some (build (tag ++ l1) t1)
  else some (build tag text0)

/-! Munge-loop regexes (tex.py lines 215-222, 353-356). -/

/-- The three bibliography environment names. -/
def bibEnvNames : List (List Char) :=
  [("chapthebibliography").toList, ("thebibliography").toList, ("references").toList]

/-- Match `\s*\x7b(chapthebibliography|thebibliography|references)\x7d`
(case-insensitively) at the head of the text. -/
def matchBibEnvTail (l : List Char) : Bool :=
  match l.dropWhile isPySpace with
  | '\x7b' :: r =>
    bibEnvNames.any fun nm =>
      match matchCILit nm r with
      | some ('\x7d' :: _) => true
      | _ => false
  | _ => false

/-- Whether `_START_REFS_REGEX` matches at this position. -/
def startRefsAt (l : List Char) : Bool :=
  match matchCILit (("\\begin").toList) l with
  | some r => matchBibEnvTail r
  | none => false

/-- `re.search` of `_START_REFS_REGEX` over a line. -/
def startRefsSearch : List Char → Bool
  | [] => false
  | c :: t => startRefsAt (c :: t) || startRefsSearch t

/-- Anchored `_END_REFS_REGEX` match: `^\s*\\end\s*\x7b(names)\x7d`. -/
def endRefsMatch (l : List Char) : Bool :=
  match matchCILit (("\\end").toList) (l.dropWhile isPySpace) with
  | some r => matchBibEnvTail r
  | none => false

/-- Whether one of the `_FORCED_NEWLINE_REGEX` alternatives
(`\bibitem|\reference|\end\x7b`, case-insensitive) matches at this position. -/
def forcedTokenAt (l : List Char) : Bool :=
  (matchCILit (("\\bibitem").toList) l).isSome ||
  (matchCILit (("\\reference").toList) l).isSome ||
  (matchCILit (("\\end\x7b").toList) l).isSome

/-- Index of the first `_FORCED_NEWLINE_REGEX` match (`re.search` start). -/
def findForced : List Char → Option Nat
  | [] => none
  | c :: t => if forcedTokenAt (c :: t) then some 0 else (findForced t).map (· + 1)

/-- The `start_item` alternation, in source order; the last entry is the
file-specific custom macro (`self.bibitem`), treated as a literal. -/
def startItemAlts (bib : List Char) : List (List Char) :=
  [("bibitem").toList, ("reference").toList, ("rn").toList, ("rf").toList,
   ("rfprep").toList, ("item").toList, bib]

/-- Regex `\b` at the position between `prev` and `rest`. -/
def wordBoundaryAfter (prev : Char) (rest : List Char) : Bool :=
  match rest with
  | [] => isWordChar prev
  | c :: _ => isWordChar prev != isWordChar c

/-- Try one alternation branch followed by `\b`, returning the matched text
(case preserved from the line) and the rest of the line. -/
def tryOneAlt (alt r : List Char) : Option (List Char × List Char) :=
  match matchCILit alt r with
  | none => none
  | some rr =>
    let matched := r.take alt.length
    let prev := if alt = [] then '\\' else matched.getLastD '\\'
    if wordBoundaryAfter prev rr then some (matched, rr) else none

/-- Try the alternation branches left to right (regex alternation order). -/
def tryAlts : List (List Char) → List Char → Option (List Char × List Char)
  | [], _ => none
  | alt :: rest, r =>
    match tryOneAlt alt r with
    | some res => some res
    | none => tryAlts rest r

/-- Anchored `start_item` match
`^\s*\\(bibitem|reference|rn|rf|rfprep|item|CUSTOM)\b(.*)` (tex.py lines
353-356), returning `(m1, m2)`. -/
def startItemMatch (bib l : List Char) : Option (List Char × List Char) :=
  match l.dropWhile isPySpace with
  | '\\' :: r => tryAlts (startItemAlts bib) r
  | _ => none

/-- Outcome of the comment-handling block (tex.py lines 393-414) for one
combined line. -/
inductive CommentAction
  | keepLine
  | dropLine
  | deferText (lip : List Char)
deriving DecidableEq, Repr

/-- The comment-handling block: find the first `%`; keep the line when the
percent starts a two-hex-digit escape or is preceded by a backslash; drop a
line whose first character is `%`; otherwise defer the text before the `%`
plus one space to be prepended to the next physical line (the text after the
`%` is not kept). -/
def commentPhase (line : List Char) : CommentAction :=
  match firstIdxOf '%' line with
  | none => .keepLine
  | some cidx =>
    if decide (cidx + 2 < line.length) && isHexChar (line.getD (cidx + 1) ' ')
        && isHexChar (line.getD (cidx + 2) ' ') then .keepLine
    else if cidx = 0 then .dropLine
    else if line.getD (cidx - 1) ' ' ≠ '\\' then .deferText (line.take cidx ++ [' '])
    else .keepLine

/-- State of the reference-munging loop (tex.py lines 377-381): accumulated
output lines, deferred `line_in_progress`, the established tag, the entry
accumulator, the reference type, and the tagged-entry count. -/
structure MungeBody where
  out : List (List Char)
  lip : List Char
  tag : Option (List Char)
  curRef : List Char
  refType : List Char
  nTagged : Nat
deriving DecidableEq, Repr

/-- Initial munge-loop state. -/
def initBody : MungeBody := ⟨[], [], none, [], [], 0⟩

/-- Flush the accumulated entry through `tag_ref` (`none` models the crash
paths: a `None` tag or a failing prefix split). -/
def flushRef (st : MungeBody) : Option MungeBody :=
  match st.tag with
  | none => none
  | some tg =>
    match tagRefLines tg st.curRef st.refType with
    | none => none
    | some ls => some { st with out := st.out ++ ls, nTagged := st.nTagged + 1, curRef := [] }

/-- The per-line munging loop (tex.py lines 383-455).  Returns the final
state and the lines left unread when `\end\x7b...\x7d` broke the loop. -/
def bodyLoop (bib : List Char) (st : MungeBody) :
    List (List Char) → Option (MungeBody × List (List Char))
  | [] => some (st, [])
  | raw :: rest =>
    let line := st.lip ++ raw
    let st1 := { st with lip := ([] : List Char) }
    match commentPhase line with
    | .dropLine => bodyLoop bib st1 rest
    | .deferText lp => bodyLoop bib { st1 with lip := lp } rest
    | .keepLine =>
      let split :=
        match findForced (line.drop 1) with
        | some i => (line.take (i + 1), line.drop (i + 1))
        | none => (line, ([] : List Char))
      let line2 := split.1
      let st2 := { st1 with lip := split.2 }
      if endRefsMatch line2 then
        match (if st2.curRef ≠ [] then flushRef st2 else some st2) with
        | none => none
        | some st3 => some ({ st3 with out := st3.out ++ [line2] }, rest)
      else
        match startItemMatch bib line2 with
        | some (m1, m2) =>
          let st3 :=
            if st2.tag = none then
              { st2 with tag := some m1,
                         refType :=
                           if m1 = ("bibitem").toList ∨ m1 = bib then ("bibitem").toList
                           else if m1 = ("reference").toList ∨ m1 = ("ref").toList then
                             ("reference").toList
                           else st2.refType }
            else st2
          match (if st3.curRef ≠ [] then flushRef st3 else some st3) with
          | none => none
          | some st4 => bodyLoop bib { st4 with curRef := m2 } rest
        | none =>
          if st2.tag ≠ none then bodyLoop bib { st2 with curRef := st2.curRef ++ line2 } rest
          else bodyLoop bib { st2 with out := st2.out ++ [line2] } rest

/-- Header copying (tex.py lines 371-374): copy lines up to and including the
first line where `_START_REFS_REGEX` matches; the rest feed the body loop. -/
def headerSplit : List (List Char) → List (List Char) × List (List Char)
  | [] => ([], [])
  | l :: rest =>
    if startRefsSearch l then ([l], rest)
    else
      let p := headerSplit rest
      (l :: p.1, p.2)

/-- Embedding of `TexSourceItem.munge_refs` on one file (tex.py lines
345-470), for a non-ignored item: returns the rewritten file and the number
of tagged entries, or `none` when `tag_ref` raises. -/
def mungeFile (bib : List Char) (isBibBbl : Bool) (lines : List (List Char)) :
    Option (List (List Char) × Nat) :=
  let hp := if isBibBbl then (([] : List (List Char)), lines) else headerSplit lines
  match bodyLoop bib initBody hp.2 with
  | none => none
  | some (st, remaining) =>
    match (if st.curRef ≠ [] then flushRef st else some st) with
    | none => none
    | some st2 =>
      let out := st2.out ++ (if st2.lip ≠ [] then [st2.lip] else []) ++ remaining
      some (hp.1 ++ out, st2.nTagged)

/-! Submission-level munging (`TexSources.munge_refs`, tex.py lines 790-811)
and the driver control flow of `_extract_inner` (lines 83-178). -/

/-- The data of one `TexSourceItem` needed for munging: the ignore flag, the
`.bib`/`.bbl` path test, the (custom) bibliography macro and the file lines. -/
structure MungeItem where
  ignore : Bool
  isBibBbl : Bool
  bibitem : List Char
  lines : List (List Char)

/-- Embedding of `TexSourceItem.munge_refs` including the ignore short-cut
(tex.py lines 345-348): an ignored file is skipped and reports zero tags. -/
def itemMungeRefs (it : MungeItem) : Option (List (List Char) × Nat) :=
  if it.ignore then some (it.lines, 0)
  else mungeFile it.bibitem it.isBibBbl it.lines

/-- Total tagged entries over all items (`n_total`); `none` when munging any
item raises. -/
def totalTagged : List MungeItem → Option Nat
  | [] => some 0
  | it :: rest =>
    match itemMungeRefs it with
    | none => none
    | some r =>
      match totalTagged rest with
      | none => none
      | some n => some (r.2 + n)

/-- Embedding of `TexSources.munge_refs` (tex.py lines 790-811): `some true`
means the submission is reported withdrawn (single candidate, ignored,
nothing tagged anywhere). -/
def texSourcesMungeRefs (items : List MungeItem) : Option Bool :=
  match totalTagged items with
  | none => none
  | some n =>
    if n = 0 then
      match items with
      | [it] => some it.ignore
      | _ => some false
    else some false

/-- Contents written to `tr_path` (tex.py lines 172-176): `%R bibcode`, `%Z`,
then one line per reference string; every `print` appends a newline. -/
def writeRefsFile (bibcode : List Char) (refs : List (List Char)) : List Char :=
  (("%R ").toList ++ bibcode) ++ '\n' ::
    ((("%Z").toList) ++ '\n' :: (refs.map (fun r => r ++ ['\n'])).flatten)

/-- Python `str.splitlines` for text whose only line terminator is `\n`
(no empty trailing line for a trailing newline). -/
def splitLinesCore : List Char → List Char → List (List Char)
  | [], acc => if acc = [] then [] else [acc.reverse]
  | c :: t, acc => if c = '\n' then acc.reverse :: splitLinesCore t [] else splitLinesCore t (c :: acc)

/-- Split a text blob into physical lines. -/
def splitLines (l : List Char) : List (List Char) := splitLinesCore l []

/-- The externally visible result of `_extract_inner` for one submission. -/
inductive ExtractResult
  | withdrawn
  | failure (code : Int)
  | success (nRefs : Nat)
  | crashed
deriving DecidableEq, Repr

/-- Control flow of `_extract_inner` (tex.py lines 128-178) for a normal run
(`until = None`).  The compilation/recovery stage is external, so the
recovered references arrive as the `refs` parameter; the second component is
the content written to `tr_path` (`none` when the file is left untouched). -/
def extractInner (items : List MungeItem) (refs : List (List Char)) (skipRefs : Bool)
    (bibcode : List Char) : ExtractResult × Option (List Char) :=
  match texSourcesMungeRefs items with
  | none => (.crashed, none)
  | some true => (.withdrawn, none)
  | some false =>
    if refs.isEmpty then (.failure (-1), none)
    else if skipRefs then (.success refs.length, none)
    else (.success refs.length, some (writeRefsFile bibcode refs))

/-! Reference recovery (`_extract_references` and `_postprocess_one_ref`,
tex.py lines 262-297).  The text here is a whole blob, newlines included
(`re.DOTALL`). -/

/-- The literal opening delimiter `<r>` as rendered into the text. -/
def openMark : List Char := ['<', 'r', '>']

/-- The literal closing delimiter `</r>`. -/
def closeMark : List Char := ['<', '/', 'r', '>']

/-- Match the closing-delimiter regex `<\s*/r\s*>` at the head of the text,
returning the remainder after the match. -/
def matchCloser : List Char → Option (List Char)
  | '<' :: t =>
    match t.dropWhile isPySpace with
    | '/' :: 'r' :: t2 =>
      match t2.dropWhile isPySpace with
      | '>' :: t3 => some t3
      | _ => none
    | _ => none
  | _ => none

/-- Non-greedy interior scan: find the first closing-delimiter match,
returning the interior before it and the text after it. -/
def scanInside : List Char → Option (List Char × List Char)
  | [] => none
  | c :: t =>
    match matchCloser (c :: t) with
    | some rest => some ([], rest)
    | none =>
      match scanInside t with
      | some (i, rest) => some (c :: i, rest)
      | none => none

/-- Whether the literal opening delimiter `<r>` sits at the head. -/
def openMarkAt (l : List Char) : Bool :=
  match l with
  | a :: b :: c :: _ => a == '<' && b == 'r' && c == '>'
  | _ => false

/-- One `_FIND_REF_REGEX.search`: the leftmost `<r>` followed by the nearest
closing delimiter; returns the captured interior and the text after the
match end.  (When the leftmost opener has no closer anywhere after it, no
later opener can have one either, so the whole search fails.) -/
def findRef : List Char → Option (List Char × List Char)
  | [] => none
  | c :: t => if openMarkAt (c :: t) then scanInside (t.drop 2) else findRef t

/-- Python `str.replace("-\n", "")`: remove every hyphen-newline join. -/
def removeHyphenNl : List Char → List Char
  | [] => []
  | '-' :: '\n' :: t => removeHyphenNl t
  | c :: t => c :: removeHyphenNl t

/-- Python `str.split()` (split on whitespace runs, dropping empties),
accumulating the current word in reverse. -/
def pySplitCore : List Char → List Char → List (List Char)
  | [], acc => if acc = [] then [] else [acc.reverse]
  | c :: t, acc =>
    if isPySpace c then
      if acc = [] then pySplitCore t [] else acc.reverse :: pySplitCore t []
    else pySplitCore t (c :: acc)

/-- Python `str.split()` on whitespace. -/
def pySplitWs (l : List Char) : List (List Char) := pySplitCore l []

/-- Python `" ".join(words)`. -/
def joinSpace : List (List Char) → List Char
  | [] => []
  | [w] => w
  | w :: ws => w ++ ' ' :: joinSpace ws

/-- Python `str.strip()`. -/
def pyStrip (l : List Char) : List Char :=
  ((l.dropWhile isPySpace).reverse.dropWhile isPySpace).reverse

/-- Embedding of `_postprocess_one_ref`: remove hyphen-newline joins,
collapse whitespace runs to single spaces, strip the ends. -/
def postprocessOneRef (r : List Char) : List Char :=
  pyStrip (joinSpace (pySplitWs (removeHyphenNl r)))

/-- The search-and-advance loop of `_extract_references`; `fuel` bounds the
iteration count (each match consumes at least seven characters, so the text
length always suffices). -/
def extractLoop : Nat → List Char → List (List Char)
  | 0, _ => []
  | fuel + 1, text =>
    match findRef text with
    | none => []
    | some (i, rest) => postprocessOneRef i :: extractLoop fuel rest

/-- Embedding of `_extract_references` on an in-memory text blob. -/
def extractReferences (text : List Char) : List (List Char) :=
  extractLoop text.length text

/-! Well-formed delimited decompositions, used to state the recovery
round-trip property: a text is junk, then `N` pairs, each an opening marker,
an interior, a closing marker and trailing junk. -/

/-- Whether `<r>` occurs anywhere in the text. -/
def hasOpenMark : List Char → Bool
  | [] => false
  | c :: t => openMarkAt (c :: t) || hasOpenMark t

/-- Assemble the pair section: each pair contributes
`<r> ++ interior ++ </r> ++ junk`. -/
def glueParts : List (List Char × List Char) → List Char
  | [] => []
  | (i, j) :: ps => openMark ++ i ++ closeMark ++ j ++ glueParts ps

/-- Assemble a whole text from leading junk and the pair list. -/
def glue (j0 : List Char) (ps : List (List Char × List Char)) : List Char :=
  j0 ++ glueParts ps

/-- No closing-delimiter match may start strictly inside the interior
(evaluated in context, with the real closing marker and continuation after
it): this is what makes a pair well formed. -/
def insideOk : List Char → List Char → Bool
  | [], _ => true
  | c :: t, rest => (matchCloser ((c :: t) ++ closeMark ++ rest)).isNone && insideOk t rest

/-- Well-formedness of the pair list: every interior is closed exactly by its
own closing marker, and no junk segment contains an opening marker. -/
def partsWF : List (List Char × List Char) → Bool
  | [] => true
  | (i, j) :: ps => insideOk i (j ++ glueParts ps) && !hasOpenMark j && partsWF ps

/-! The candidate scanner (`_probe_one_source`, tex.py lines 629-720, and
`TexSources.scan_cwd`, lines 739-788). -/

/-- Regex `\\begin\s*\x7bdocument\x7d` at this position (case-sensitive). -/
def beginDocAt (l : List Char) : Bool :=
  match matchLit (("\\begin").toList) l with
  | some r => (matchLit (("\x7bdocument\x7d").toList) (r.dropWhile isPySpace)).isSome
  | none => false

/-- Search for `\\begin\s*\x7bdocument\x7d` anywhere in the text. -/
def searchBeginDoc : List Char → Bool
  | [] => false
  | c :: t => beginDocAt (c :: t) || searchBeginDoc t

/-- First `_LATEX_DOCCLASS_REGEXES` entry: `^\s+\\begin\s\x7bdocument\x7d`. -/
def matchDocR1 (l : List Char) : Bool :=
  match l with
  | [] => false
  | c :: _ =>
    isPySpace c &&
      (match matchLit (("\\begin").toList) (l.dropWhile isPySpace) with
       | some (c2 :: r) => isPySpace c2 && (matchLit (("\x7bdocument\x7d").toList) r).isSome
       | _ => false)

/-- Second entry `^\s*[^%$].*?\\begin\s*\x7bdocument\x7d`: equivalent to the
first character not being `%` or `$` and the begin-document pattern occurring
at some position at least 1. -/
def matchDocR2 : List Char → Bool
  | [] => false
  | c :: t => c != '%' && c != '$' && searchBeginDoc t

/-- Third entry `^\s*\\documentclass\b`. -/
def matchDocR3 (l : List Char) : Bool :=
  match matchLit (("\\documentclass").toList) (l.dropWhile isPySpace) with
  | some r => wordBoundaryAfter 's' r
  | none => false

/-- Fourth entry `^\s*\\documentstyle\b`. -/
def matchDocR4 (l : List Char) : Bool :=
  match matchLit (("\\documentstyle").toList) (l.dropWhile isPySpace) with
  | some r => wordBoundaryAfter 'e' r
  | none => false

/-- `_match_any` over `_LATEX_DOCCLASS_REGEXES`. -/
def docclassMatch (l : List Char) : Bool :=
  matchDocR1 l || matchDocR2 l || matchDocR3 l || matchDocR4 l

/-- `^\s*\\begin\s*\x7babstract\x7d\b` (case-insensitive); note that `\b`
after the closing brace requires a following word character. -/
def matchMainAbstract (l : List Char) : Bool :=
  match matchCILit (("\\begin").toList) (l.dropWhile isPySpace) with
  | some r =>
    match matchCILit (("\x7babstract\x7d").toList) (r.dropWhile isPySpace) with
    | some rr => wordBoundaryAfter '\x7d' rr
    | none => false
  | none => false

/-- `^\s*\\section\s*\x7bintroduction\x7d\b` (case-insensitive). -/
def matchMainIntro (l : List Char) : Bool :=
  match matchCILit (("\\section").toList) (l.dropWhile isPySpace) with
  | some r =>
    match matchCILit (("\x7bintroduction\x7d").toList) (r.dropWhile isPySpace) with
    | some rr => wordBoundaryAfter '\x7d' rr
    | none => false
  | none => false

/-- `_match_any` over `_TEX_MAIN_FILE_REGEXES` (case-insensitive).  Note the
first source pattern is `r"^\title\{"`, where `\t` is the regex TAB escape,
so it matches a TAB followed by `itle` and a brace, not `\title`. -/
def mainfileMatch (l : List Char) : Bool :=
  (matchCILit (("\title\x7b").toList) l).isSome || matchMainAbstract l ||
    matchMainIntro l || startRefsAt (l.dropWhile isPySpace)

/-- Greedy `(.*)\x7d` capture: everything before the last closing brace. -/
def lastBraceCapture (r : List Char) : Option (List Char) :=
  if r.contains '\x7d' then
    some (((r.reverse.dropWhile (fun c => c != '\x7d')).drop 1).reverse)
  else none

/-- `^\s*\\shorttitle\s*\x7b(.*)\x7d` (case-insensitive), returning `m[1]`. -/
def shorttitleMatch (l : List Char) : Option (List Char) :=
  match matchCILit (("\\shorttitle").toList) (l.dropWhile isPySpace) with
  | some r =>
    match r.dropWhile isPySpace with
    | '\x7b' :: rr => lastBraceCapture rr
    | _ => none
  | none => none

/-- Regex `\x7b\\bibitem\b` at this position (case-insensitive). -/
def braceBibitemAt (l : List Char) : Bool :=
  match matchCILit (("\x7b\\bibitem").toList) l with
  | some r => wordBoundaryAfter 'm' r
  | none => false

/-- Search for `\x7b\\bibitem\b` anywhere in the text. -/
def searchBraceBibitem : List Char → Bool
  | [] => false
  | c :: t => braceBibitemAt (c :: t) || searchBraceBibitem t

/-- `^\s*\\newcommand\s*\x7b\\([^\x7d]+)\x7d.*?\x7b\\bibitem\b`
(case-insensitive), returning the captured macro name. -/
def newcommandMatch (l : List Char) : Option (List Char) :=
  match matchCILit (("\\newcommand").toList) (l.dropWhile isPySpace) with
  | some r =>
    match r.dropWhile isPySpace with
    | '\x7b' :: '\\' :: rr =>
      let name := rr.takeWhile (fun c => c != '\x7d')
      if name = [] then none
      else
        match rr.drop name.length with
        | '\x7d' :: after => if searchBraceBibitem after then some name else none
        | _ => none
    | _ => none
  | none => none

/-- Non-greedy `(.+?)` scan of the `\def` pattern: the shortest non-empty
name followed immediately by `\x7b\\bibitem\b`. -/
def defScanName : List Char → Option (List Char)
  | [] => none
  | c :: t => if braceBibitemAt t then some [c] else (defScanName t).map (fun n => c :: n)

/-- `^\s*\\def\x7b?\\(.+?)\x7b\\bibitem\b` (case-insensitive), returning the
captured macro name. -/
def defMatch (l : List Char) : Option (List Char) :=
  match matchCILit (("\\def").toList) (l.dropWhile isPySpace) with
  | some ('\x7b' :: '\\' :: rr) => defScanName rr
  | some ('\\' :: rr) => defScanName rr
  | _ => none

/-- Non-greedy `\s*(\S*?)\s*\x7d` capture of the braced `\input` argument. -/
def inputCapScan : List Char → Option (List Char)
  | [] => none
  | c :: t =>
    if c = '\x7d' then some []
    else if isPySpace c then
      (if ((t.dropWhile isPySpace).headD 'x') = '\x7d' then some [] else none)
    else (inputCapScan t).map (fun n => c :: n)

/-- `^\s*\\input\x7b\s*(\S*?)\s*\x7d` (case-sensitive), returning `m[1]`. -/
def inputBraceMatch (l : List Char) : Option (List Char) :=
  match matchLit (("\\input").toList) (l.dropWhile isPySpace) with
  | some ('\x7b' :: r) => inputCapScan (r.dropWhile isPySpace)
  | _ => none

/-- `^\s*\\input\s+(\S*?)` (case-sensitive); the trailing non-greedy capture
always matches the empty string, so a match records the empty filename. -/
def inputSpaceMatch (l : List Char) : Bool :=
  match matchLit (("\\input").toList) (l.dropWhile isPySpace) with
  | some (c :: _) => isPySpace c
  | _ => false

/-- Mutable scanning state of `_probe_one_source`, plus the shared
`non_main_files` accumulator. -/
structure ProbeState where
  score : Int
  bibitem : List Char
  title : Option (List Char)
  fmt : List Char
  ignore : Bool
  nonMain : List (List Char)
deriving DecidableEq, Repr

/-- One iteration of the per-line scan of `_probe_one_source` (tex.py lines
674-715); the boolean is the `break` taken on the auto-ignore marker.  Note
that the document-class branch does not `continue`, while every later
matching branch does. -/
def probeLine (st : ProbeState) (line : List Char) : ProbeState × Bool :=
  if containsSeq (("%auto-ignore").toList) line then ({ st with ignore := true }, true)
  else
    let st1 :=
      if docclassMatch line then { st with fmt := ("latex").toList, score := st.score + 1 }
      else st
    if mainfileMatch line then ({ st1 with score := st1.score + 1 }, false)
    else
      match shorttitleMatch line with
      | some cap => ({ st1 with title := some cap, score := st1.score + 1 }, false)
      | none =>
        match newcommandMatch line with
        | some nm => ({ st1 with bibitem := nm }, false)
        | none =>
          match defMatch line with
          | some nm => ({ st1 with bibitem := nm }, false)
          | none =>
            match inputBraceMatch line with
            | some fn => ({ st1 with nonMain := st1.nonMain ++ [fn] }, false)
            | none =>
              if inputSpaceMatch line then ({ st1 with nonMain := st1.nonMain ++ [[]] }, false)
              else (st1, false)

/-- The whole per-line scan over a file's lines. -/
def probeFold (st : ProbeState) : List (List Char) → ProbeState
  | [] => st
  | l :: rest =>
    let p := probeLine st l
    if p.2 then p.1 else probeFold p.1 rest

/-! Score futzing and default-fill in `TexSources.scan_cwd` (tex.py lines
753-783). -/

/-- The fields of a scanned candidate used after the per-file probe. -/
structure ScanItem where
  path : List Char
  score : Int
  bibitem : List Char
  title : Option (List Char)
  fmt : List Char
  ignore : Bool
deriving DecidableEq, Repr

/-- Python `s.rsplit(".", 1)[0]`: everything before the last dot, or the
whole string when there is none. -/
def pyRsplitStem (s : List Char) : List Char :=
  if s.contains '.' then ((s.reverse.dropWhile (fun c => c != '.')).drop 1).reverse
  else s

/-- The inclusion-based score override (tex.py lines 755-761): an exact path
in the non-main set forces score −2; otherwise a stem match forces −1. -/
def futzNonMain (nonMain : List (List Char)) (it : ScanItem) : ScanItem :=
  if it.path ∈ nonMain then { it with score := -2 }
  else if pyRsplitStem it.path ∈ nonMain then { it with score := -1 }
  else it

/-- Gather `default_bibitem`: first non-empty macro name in list order. -/
def firstBibitemDefault : List ScanItem → Option (List Char)
  | [] => none
  | it :: rest => if it.bibitem ≠ [] then some it.bibitem else firstBibitemDefault rest

/-- Gather `default_title`: first truthy title in list order. -/
def firstTitleDefault : List ScanItem → Option (List Char)
  | [] => none
  | it :: rest =>
    match it.title with
    | some s => if s ≠ [] then some s else firstTitleDefault rest
    | none => firstTitleDefault rest

/-- Python truthiness of the title field (`None` and `""` are falsy). -/
def pyTruthyTitle : Option (List Char) → Bool
  | none => false
  | some s => !s.isEmpty

/-- Apply the defaults to one candidate (tex.py lines 779-783): only empty
fields are overwritten. -/
def fillOne (db : List Char) (dt : Option (List Char)) (it : ScanItem) : ScanItem :=
  let it1 := if it.bibitem = [] then { it with bibitem := db } else it
  if pyTruthyTitle it1.title then it1 else { it1 with title := dt }

/-- The default-fill step over the (sorted) candidate list (tex.py lines
766-783), with the literal fallback macro name. -/
def defaultFill (items : List ScanItem) : List ScanItem :=
  items.map (fillOne ((firstBibitemDefault items).getD (("bibitem").toList))
    (firstTitleDefault items))

/-- Python `str.lower` (ASCII). -/
def pyLower (s : List Char) : List Char := s.map Char.toLower

/-- Python `s.endswith(suffix)`. -/
def endsWithLit (suffix s : List Char) : Bool := List.isSuffixOf suffix s

/-- One entry of the unpacked working directory, already decoded to text
lines (the binary-content sniff and the charset decoding of `_file_lines`
are external collaborators, so the directory is modelled as text files). -/
structure CwdFile where
  name : List Char
  lines : List (List Char)

/-- The `_BASENAME_SCORE_DELTAS` table (tex.py lines 592-600). -/
def basenameScoreDelta (basename : List Char) : Int :=
  if basename = ("mn2eguide").toList then -100
  else if basename = ("mn2esample").toList then -100
  else if basename = ("mnras_guide").toList then -100
  else if basename = ("aa").toList then -100
  else if basename = ("new_feat").toList then -50
  else if basename = ("rnaas").toList then -5
  else if basename = ("mnras_template").toList then -2
  else 0

/-- Embedding of `_probe_one_source` (tex.py lines 629-720) on one directory
entry: the name rejections and extension scoring on the lowered file name,
the basename penalty, and the per-line scan.  The candidate's `path` is the
absolute path `cwd/name` produced by the `Path.cwd()` directory walk of
`_find_files_cwd` (lines 723-733).  Returns the candidate (`none` for a
rejected file) and the filenames this file contributed to
`non_main_files`. -/
def probeOneSource (cwd : List Char) (f : CwdFile) :
    Option ScanItem × List (List Char) :=
  let s := pyLower f.name
  if containsSeq (("psfig").toList) s then (none, [])
  else if endsWithLit ((".eps").toList) s then (none, [])
  else
    let extScore : Option Int :=
      if endsWithLit ((".tex").toList) s || endsWithLit ((".ltx").toList) s ||
          endsWithLit ((".latex").toList) s || endsWithLit ((".revtex").toList) s then some 1
      else if endsWithLit ((".bib").toList) s || endsWithLit ((".bbl").toList) s then some 0
      else if endsWithLit ((".txt").toList) s || !(s.contains '.') then some 0
      else none
    match extScore with
    | none => (none, [])
    | some sc0 =>
      let sc1 := sc0 + basenameScoreDelta (pyRsplitStem s)
      let st := probeFold ⟨sc1, [], some [], [], false, []⟩ f.lines
      (some ⟨cwd ++ '/' :: f.name, st.score, st.bibitem, st.title, st.fmt, st.ignore⟩,
       st.nonMain)

/-- The first phase of `TexSources.scan_cwd` (tex.py lines 744-751) over a
flat working directory: probe every file, collecting the candidate list and
the shared `non_main_files` set (as a list, in discovery order). -/
def scanCwdItems (cwd : List Char) : List CwdFile → List ScanItem × List (List Char)
  | [] => ([], [])
  | f :: rest =>
    let r := probeOneSource cwd f
    let p := scanCwdItems cwd rest
    ((match r.1 with
      | some it => it :: p.1
      | none => p.1), r.2 ++ p.2)

/-- Stable insertion for Python `sorted(..., key=score, reverse=True)`: an
item is placed after every earlier item with an equal or higher score. -/
def insertDesc (it : ScanItem) : List ScanItem → List ScanItem
  | [] => [it]
  | x :: xs => if x.score ≤ it.score then it :: x :: xs else x :: insertDesc it xs

/-- Python's stable descending sort by score (tex.py line 764). -/
def sortScoreDesc : List ScanItem → List ScanItem
  | [] => []
  | x :: xs => insertDesc x (sortScoreDesc xs)

/-- Embedding of `TexSources.scan_cwd` (tex.py lines 739-788) over a flat
working directory: the per-file probe, the inclusion-based score override,
the stable descending sort, and the default fill. -/
def scanCwd (cwd : List Char) (files : List CwdFile) : List ScanItem :=
  let p := scanCwdItems cwd files
  defaultFill (sortScoreDesc (p.1.map (futzNonMain p.2)))

/-! Theorems for the spec claims. -/

/-- Claim C1, counterexample.  The claim says that for a comment `%` not at
position 0, not escaped and not a hex escape, the text before the `%`
survives in place and the remainder after the `%` is deferred and
re-prepended to the next physical line.  On the concrete line `x%y` followed
by `d`, the munger instead defers the pre-comment text `x ` (prefix plus one
space) and discards `y`: the munged file joins `x` with the following line
`d` into the single line `x d`, and the comment action is not a deferral of
the post-`%` text `y`. -/
theorem claim_c1_counterexample :
    mungeFile (("bibitem").toList) false
      [("\\begin\x7bthebibliography\x7d\x7b1\x7d").toList, ("x%y").toList, ("d").toList,
       ("\\end\x7bthebibliography\x7d").toList] =
    some ([("\\begin\x7bthebibliography\x7d\x7b1\x7d").toList, ("x d").toList,
       ("\\end\x7bthebibliography\x7d").toList], 0) ∧
    commentPhase (("x%y").toList) = CommentAction.deferText (("x ").toList) ∧
    commentPhase (("x%y").toList) ≠ CommentAction.deferText (("y").toList) := by
  refine ⟨by decide, by decide, by decide⟩

/-- Claim C1, amended.  During munging, for every physical line whose first
`%` sits at a position `cidx > 0`, is not preceded by a backslash and is not
followed by two hexadecimal digits, the text before the `%` plus a single
space is deferred (as `line_in_progress`) and re-prepended to the next
physical line, while the remainder after the `%` is discarded: the loop step
carries exactly `line.take cidx ++ " "` into the state and emits nothing. -/
theorem claim_c1_amended (bib : List Char) (st : MungeBody) (raw : List Char)
    (rest : List (List Char)) (cidx : Nat)
    (hlip : st.lip = [])
    (hidx : firstIdxOf '%' raw = some cidx)
    (h0 : cidx ≠ 0)
    (hesc : raw.getD (cidx - 1) ' ' ≠ '\\')
    (hhex : (decide (cidx + 2 < raw.length) && isHexChar (raw.getD (cidx + 1) ' ')
              && isHexChar (raw.getD (cidx + 2) ' ')) = false) :
    commentPhase raw = CommentAction.deferText (raw.take cidx ++ [' ']) ∧
    bodyLoop bib st (raw :: rest) = bodyLoop bib { st with lip := raw.take cidx ++ [' '] } rest := by
  have hc : commentPhase raw = CommentAction.deferText (raw.take cidx ++ [' ']) := by
    unfold commentPhase
    rw [hidx]
    simp only [hhex, Bool.false_eq_true, if_false]
    rw [if_neg h0, if_pos hesc]
  refine ⟨hc, ?_⟩
  conv_lhs => rw [bodyLoop]
  rw [hlip]
  simp only [List.nil_append, hc]

/-- Claim C1 witness: the amended step equation evaluated on the line `x%y`
with `d` following. -/
theorem claim_c1_witness :
    commentPhase (("ab%xy").toList) = CommentAction.deferText (("ab ").toList) ∧
    bodyLoop (("bibitem").toList) initBody [("ab%xy").toList, ("e").toList] =
      bodyLoop (("bibitem").toList) { initBody with lip := ("ab ").toList } [("e").toList] :=
  claim_c1_amended (("bibitem").toList) initBody (("ab%xy").toList) [("e").toList] 2
    (by decide) (by decide) (by decide) (by decide) (by decide)

/-- Claim C3.  The spec says malformed prefix stripping (an opening
delimiter with no balanced close, or empty / all-whitespace text) degrades
gracefully to stripping nothing without raising.  The code instead falls off
the scanning loop and returns `None` (violating its own `-> Tuple[str, str]`
annotation), so the caller's tuple unpacking raises `TypeError`: on these
inputs `_split_on_delimited_prefix` yields no pair at all, `tag_ref` crashes,
and munging a file whose last entry has an unclosed brace prefix crashes. -/
theorem claim_c3_split_crashes :
    splitOnDelimited (("\x7bunclosed").toList) '\x7b' '\x7d' = none ∧
    splitOnDelimited ([] : List Char) '\x7b' '\x7d' = none ∧
    splitOnDelimited (("   ").toList) '\x7b' '\x7d' = none ∧
    splitOnDelimited (("[unclosed").toList) '[' ']' = none ∧
    tagRefLines (("bibitem").toList) (("\x7bunclosed").toList) (("bibitem").toList) = none ∧
    mungeFile (("bibitem").toList) false
      [("\\begin\x7bthebibliography\x7d\x7b1\x7d").toList,
       ("\\bibitem \x7bunclosed").toList] = none := by
  refine ⟨by decide, by decide, by decide, by decide, by decide, by decide⟩

set_option maxRecDepth 100000 in
set_option maxHeartbeats 2000000 in
/-- Claim C6.  The spec requires munging to be parse-stable: a second run on
the munged file must report the same tagged-entry count.  On a file whose
reference text absorbs an unbalanced `\end\x7bthebibliography` (closed on the
following line), the first munge tags 2 entries, but the rendered entry then
contains a full `\end\x7bthebibliography\x7d`; the second munge force-splits
it to the start of a line, takes it for the end of the bibliography, and
stops after tagging only 1 entry. -/
theorem claim_c6_not_parse_stable :
    ((mungeFile (("bibitem").toList) false
        [("\\begin\x7bthebibliography\x7d\x7b9\x7d").toList,
         ("\\bibitem\x7ba\x7d one").toList,
         ("\\end\x7bthebibliography").toList,
         ("\x7d").toList,
         ("\\bibitem\x7bb\x7d two").toList,
         ("\\end\x7bthebibliography\x7d").toList]).bind fun r =>
      (mungeFile (("bibitem").toList) false r.1).map fun r2 => (r.2, r2.2)) =
    some (2, 1) := by decide

/-- Claim C2.  The claim (and spec scenario) say an `\input` directive for
`other` forces the candidate `other.tex` to score at most −1, overriding its
positive content score.  In the code the scanner records the bare name
`other` in the non-main set, but candidates are enumerated by the
`Path.cwd()` walk, so the override of tex.py lines 755-761 compares the
absolute path `/work/other.tex` and its stem `/work/other` against that set:
neither ever equals `other`, the −2/−1 forcing never fires, and `other.tex`
keeps its positive score 3, even outranking the main file. -/
theorem claim_c2_override_unreachable :
    (scanCwdItems (("/work").toList)
      [⟨("main.tex").toList,
        [("\\documentclass\x7barticle\x7d").toList, ("\\input\x7bother\x7d").toList]⟩,
       ⟨("other.tex").toList,
        [("\\documentclass\x7barticle\x7d").toList,
         ("\\begin\x7bthebibliography\x7d\x7b9\x7d").toList]⟩]).2 = [("other").toList] ∧
    pyRsplitStem (("/work/other.tex").toList) = ("/work/other").toList ∧
    futzNonMain [("other").toList]
      ⟨("/work/other.tex").toList, 3, [], some [], ("latex").toList, false⟩ =
      ⟨("/work/other.tex").toList, 3, [], some [], ("latex").toList, false⟩ ∧
    scanCwd (("/work").toList)
      [⟨("main.tex").toList,
        [("\\documentclass\x7barticle\x7d").toList, ("\\input\x7bother\x7d").toList]⟩,
       ⟨("other.tex").toList,
        [("\\documentclass\x7barticle\x7d").toList,
         ("\\begin\x7bthebibliography\x7d\x7b9\x7d").toList]⟩] =
      [⟨("/work/other.tex").toList, 3, ("bibitem").toList, none, ("latex").toList, false⟩,
       ⟨("/work/main.tex").toList, 2, ("bibitem").toList, none, ("latex").toList, false⟩] := by
  refine ⟨by decide, by decide, by decide, by decide⟩

/-- Claim C5.  If the submission has exactly one candidate, that candidate is
flagged ignore, and zero entries were tagged across all files, the pipeline
reports the withdrawn outcome; with more than one candidate, or with any
tagged entry, withdrawn is not reported by this rule. -/
theorem claim_c5_withdrawn (items : List MungeItem) (refs : List (List Char))
    (skipRefs : Bool) (bibcode : List Char) :
    (∀ it, items = [it] → it.ignore = true → totalTagged items = some 0 →
       (extractInner items refs skipRefs bibcode).1 = ExtractResult.withdrawn) ∧
    ((items.length ≠ 1 ∨ (∃ n, totalTagged items = some n ∧ 0 < n)) →
       (extractInner items refs skipRefs bibcode).1 ≠ ExtractResult.withdrawn) := by
  constructor
  · rintro it rfl hign htot
    unfold extractInner texSourcesMungeRefs
    rw [htot]
    simp [hign]
  · intro h
    have hts : texSourcesMungeRefs items ≠ some true := by
      unfold texSourcesMungeRefs
      rcases htot : totalTagged items with _ | n
      · simp
      · rcases h with hlen | ⟨m, hm, hpos⟩
        · rcases items with _ | ⟨a, t⟩
          · simp
          · rcases t with _ | ⟨b, t2⟩
            · simp at hlen
            · simp
        · have hne : n ≠ 0 := by
            rw [htot] at hm
            injection hm with hnm
            omega
          simp [hne]
    unfold extractInner
    rcases h2 : texSourcesMungeRefs items with _ | b
    · simp
    · rcases b
      · split_ifs <;> simp
      · rw [h2] at hts
        exact absurd rfl hts

/-- Claim C5 witness: a submission with a single ignored candidate (a file
holding only the auto-ignore marker) and nothing tagged is withdrawn. -/
theorem claim_c5_witness :
    (extractInner [⟨true, false, ("bibitem").toList, [("%auto-ignore").toList]⟩]
      [] false (("B").toList)).1 = ExtractResult.withdrawn :=
  (claim_c5_withdrawn [⟨true, false, ("bibitem").toList, [("%auto-ignore").toList]⟩]
    [] false (("B").toList)).1 _ rfl rfl (by decide)

/-- Claim C8.  The default-fill step maps each candidate through `fillOne`
with the first non-empty macro name (fallback literal `bibitem`) and the
first truthy title gathered in list order; `fillOne` never overwrites a
non-empty `bibitem` or a truthy `title`, fills only empty fields, and leaves
the path, score, format and ignore fields unchanged. -/
theorem claim_c8_default_fill (items : List ScanItem) :
    defaultFill items =
      items.map (fillOne ((firstBibitemDefault items).getD (("bibitem").toList))
        (firstTitleDefault items)) ∧
    ∀ db dt it,
      ((fillOne db dt it).path = it.path ∧ (fillOne db dt it).score = it.score ∧
       (fillOne db dt it).fmt = it.fmt ∧ (fillOne db dt it).ignore = it.ignore) ∧
      (it.bibitem ≠ [] → (fillOne db dt it).bibitem = it.bibitem) ∧
      (it.bibitem = [] → (fillOne db dt it).bibitem = db) ∧
      (pyTruthyTitle it.title = true → (fillOne db dt it).title = it.title) ∧
      (pyTruthyTitle it.title = false → (fillOne db dt it).title = dt) := by
  refine ⟨rfl, fun db dt it => ?_⟩
  by_cases hb : it.bibitem = [] <;> by_cases ht : pyTruthyTitle it.title = true <;>
    simp [fillOne, hb, ht]

/-- Claim C8 witness: with a first candidate carrying macro `x` and title
`T`, default fill leaves that candidate untouched and fills only the second
(empty) candidate's fields. -/
theorem claim_c8_witness :
    defaultFill [⟨("a.tex").toList, 1, ("x").toList, some (("T").toList), [], false⟩,
                 ⟨("b.tex").toList, 0, [], some [], [], false⟩] =
      [⟨("a.tex").toList, 1, ("x").toList, some (("T").toList), [], false⟩,
       ⟨("b.tex").toList, 0, ("x").toList, some (("T").toList), [], false⟩] ∧
    (fillOne (("x").toList) (some (("T").toList))
      ⟨("b.tex").toList, 0, [], some [], [], false⟩).bibitem = ("x").toList :=
  ⟨(claim_c8_default_fill [⟨("a.tex").toList, 1, ("x").toList, some (("T").toList), [], false⟩,
      ⟨("b.tex").toList, 0, [], some [], [], false⟩]).1.trans (by decide),
   ((claim_c8_default_fill []).2 (("x").toList) (some (("T").toList))
      ⟨("b.tex").toList, 0, [], some [], [], false⟩).2.2.1 rfl⟩

/-- Helper: splitting lines of `a ++ '\n' :: r` when `a` has no newline. -/
theorem splitLinesCore_append (a : List Char) (r acc : List Char) (h : '\n' ∉ a) :
    splitLinesCore (a ++ '\n' :: r) acc = (acc.reverse ++ a) :: splitLinesCore r [] := by
  induction a generalizing acc with
  | nil => simp [splitLinesCore]
  | cons c t ih =>
    have hc : c ≠ '\n' := fun e => h (e ▸ List.mem_cons_self c t)
    rw [List.cons_append]
    rw [splitLinesCore, if_neg hc, ih (c :: acc) (fun hm => h (List.mem_cons_of_mem c hm))]
    simp

/-- Helper: splitting the concatenation of newline-terminated lines recovers
exactly those lines. -/
theorem splitLines_flatten (refs : List (List Char)) (h : ∀ r ∈ refs, '\n' ∉ r) :
    splitLines ((refs.map (fun r => r ++ ['\n'])).flatten) = refs := by
  induction refs with
  | nil => rfl
  | cons r rs ih =>
    have h1 : '\n' ∉ r := h r (List.mem_cons_self r rs)
    have h2 : ∀ x ∈ rs, '\n' ∉ x := fun x hx => h x (List.mem_cons_of_mem r hx)
    have : ((r :: rs).map (fun x => x ++ ['\n'])).flatten =
        r ++ '\n' :: (rs.map (fun x => x ++ ['\n'])).flatten := by
      simp
    rw [this]
    unfold splitLines
    rw [splitLinesCore_append r _ [] h1]
    simpa using ih h2

/-- Claim C9, counterexample.  Recovery on `x<r> </r>y` succeeds with the
non-empty reference list `[""]`; the written file then has the blank third
line `""`, so "no blank lines" fails even though every subsequent line is
one recovered reference string, and the driver reports success and writes the
file. -/
theorem claim_c9_counterexample :
    extractReferences (("x<r> </r>y").toList) = [[]] ∧
    splitLines (writeRefsFile (("B").toList) [[]]) =
      [("%R B").toList, ("%Z").toList, []] ∧
    ([] : List Char) ∈ splitLines (writeRefsFile (("B").toList) [[]]) ∧
    (extractInner [] [[]] false (("B").toList)).1 = ExtractResult.success 1 ∧
    (extractInner [] [[]] false (("B").toList)).2 =
      some (writeRefsFile (("B").toList) [[]]) := by
  refine ⟨by decide, by decide, by decide, by decide, by decide⟩

/-- Claim C9, amended.  When extraction succeeds and writing is enabled, the
output file's lines are exactly `%R bibcode`, `%Z`, then the reference
strings in order; there are no blank lines provided every recovered
reference string is non-empty (an empty refstring yields a blank line). -/
theorem claim_c9_amended (bibcode : List Char) (refs : List (List Char))
    (hb : '\n' ∉ bibcode) (hr : ∀ r ∈ refs, '\n' ∉ r) :
    splitLines (writeRefsFile bibcode refs) =
      (("%R ").toList ++ bibcode) :: ("%Z").toList :: refs ∧
    ((∀ r ∈ refs, r ≠ []) →
      ∀ l ∈ splitLines (writeRefsFile bibcode refs), l ≠ []) := by
  have hlines : splitLines (writeRefsFile bibcode refs) =
      (("%R ").toList ++ bibcode) :: ("%Z").toList :: refs := by
    unfold writeRefsFile splitLines
    rw [splitLinesCore_append (("%R ").toList ++ bibcode) _ []
      (by
        intro hm
        rcases List.mem_append.1 hm with hm | hm
        · exact absurd hm (by decide)
        · exact hb hm)]
    rw [splitLinesCore_append (("%Z").toList) _ [] (by decide)]
    have := splitLines_flatten refs hr
    unfold splitLines at this
    rw [this]
    rfl
  refine ⟨hlines, fun hne l hl => ?_⟩
  rw [hlines] at hl
  rcases hl with _ | ⟨_, hl⟩
  · simp
  · rcases hl with _ | ⟨_, hl⟩
    · decide
    · exact hne l hl

/-- Claim C9 witness: the amended format on a concrete bibcode and a single
non-empty reference string. -/
theorem claim_c9_witness :
    splitLines (writeRefsFile (("2020xxxx").toList) [("Smith, J. 2020.").toList]) =
      [("%R 2020xxxx").toList, ("%Z").toList, ("Smith, J. 2020.").toList] ∧
    ∀ l ∈ splitLines (writeRefsFile (("2020xxxx").toList) [("Smith, J. 2020.").toList]),
      l ≠ [] := by
  have h := claim_c9_amended (("2020xxxx").toList) [("Smith, J. 2020.").toList]
    (by decide) (by decide)
  exact ⟨h.1, h.2 (by decide)⟩

/-- Claim C10.  The target references file is untouched whenever extraction
fails or the submission is withdrawn; content is written only on the success
path, only when at least one reference was recovered, and only when
`skip_refs` is false — and then the content is exactly the reference file
format. -/
theorem claim_c10_write_only_on_success (items : List MungeItem) (refs : List (List Char))
    (skipRefs : Bool) (bibcode : List Char) :
    (∀ code, (extractInner items refs skipRefs bibcode).1 = ExtractResult.failure code →
      (extractInner items refs skipRefs bibcode).2 = none) ∧
    ((extractInner items refs skipRefs bibcode).1 = ExtractResult.withdrawn →
      (extractInner items refs skipRefs bibcode).2 = none) ∧
    (∀ content, (extractInner items refs skipRefs bibcode).2 = some content →
      (extractInner items refs skipRefs bibcode).1 = ExtractResult.success refs.length ∧
      refs ≠ [] ∧ skipRefs = false ∧ content = writeRefsFile bibcode refs) := by
  unfold extractInner
  rcases texSourcesMungeRefs items with _ | b
  · simp
  · rcases b
    · split_ifs with h1 h2 <;>
        simp_all [List.isEmpty_iff]
    · simp

/-- Claim C10 witness: on a concrete successful run with writing enabled, the
driver reports success for the one recovered reference and the written
content is the reference-file format. -/
theorem claim_c10_witness :
    (extractInner [] [("r1").toList] false (("B").toList)).1 = ExtractResult.success 1 ∧
    ([("r1").toList] : List (List Char)) ≠ [] := by
  have h := (claim_c10_write_only_on_success [] [("r1").toList] false (("B").toList)).2.2
    (writeRefsFile (("B").toList) [("r1").toList]) (by decide)
  exact ⟨h.1, h.2.1⟩

/-- Claim C4, counterexample.  The claim says the first custom
bibliography-macro definition wins.  On a file defining `\aone` and then
`\btwo` (both wrapping `\bibitem`), the scanner reports `btwo`: each
definition overwrites the previous one, so the last wins, not the first. -/
theorem claim_c4_counterexample :
    (probeFold ⟨0, [], some [], [], false, []⟩
      [("\\newcommand\x7b\\aone\x7d\x7b\\bibitem\x7d").toList,
       ("\\newcommand\x7b\\btwo\x7d\x7b\\bibitem\x7d").toList]).bibitem = ("btwo").toList ∧
    (probeFold ⟨0, [], some [], [], false, []⟩
      [("\\newcommand\x7b\\aone\x7d\x7b\\bibitem\x7d").toList,
       ("\\newcommand\x7b\\btwo\x7d\x7b\\bibitem\x7d").toList]).bibitem ≠ ("aone").toList := by
  refine ⟨by decide, by decide⟩

/-- Claim C4, amended.  When the scanner processes a run of lines that each
match a custom bibliography-item macro definition (`\newcommand` or `\def`
wrapping `\bibitem`) and none of the earlier branches (auto-ignore,
document-class, main-file, short-title patterns), the captured macro name is
that of the last definition (later definitions overwrite earlier ones), and
capturing never changes the score, title, format, ignore flag or non-main
set. -/
theorem claim_c4_amended (st : ProbeState) (lines : List (List Char))
    (names : List (List Char))
    (h : List.Forall₂ (fun l nm =>
      containsSeq (("%auto-ignore").toList) l = false ∧
      docclassMatch l = false ∧ mainfileMatch l = false ∧ shorttitleMatch l = none ∧
      (newcommandMatch l = some nm ∨ (newcommandMatch l = none ∧ defMatch l = some nm)))
      lines names) :
    probeFold st lines = { st with bibitem := names.getLastD st.bibitem } := by
  induction h generalizing st with
  | nil => simp [probeFold]
  | @cons l nm ls nms hp _ ih =>
    obtain ⟨ha, hd, hm, hs, hb⟩ := hp
    have hline : probeLine st l = ({ st with bibitem := nm }, false) := by
      unfold probeLine
      rw [ha]
      simp only [Bool.false_eq_true, if_false, hd, hm, hs]
      rcases hb with hb | ⟨hb1, hb2⟩
      · rw [hb]
      · rw [hb1, hb2]
    rw [probeFold, hline]
    simp only [Bool.false_eq_true, if_false]
    rw [ih]
    rw [List.getLastD_cons]

/-- Claim C4 witness: the amended statement on two concrete definitions,
starting from a state with score 3; the result keeps score 3 and ends with
the macro name of the last definition. -/
theorem claim_c4_witness :
    probeFold ⟨3, [], some [], [], false, []⟩
      [("\\newcommand\x7b\\aone\x7d\x7b\\bibitem\x7d").toList,
       ("\\def\\btwo\x7b\\bibitem\x7d").toList] =
      { (⟨3, [], some [], [], false, []⟩ : ProbeState) with bibitem := ("btwo").toList } :=
  claim_c4_amended ⟨3, [], some [], [], false, []⟩ _
    [("aone").toList, ("btwo").toList]
    (List.Forall₂.cons
      ⟨by decide, by decide, by decide, by decide, Or.inl (by decide)⟩
      (List.Forall₂.cons
        ⟨by decide, by decide, by decide, by decide, Or.inr ⟨by decide, by decide⟩⟩
        List.Forall₂.nil))

/-- Helper: a text with no opening delimiter yields no reference match. -/
theorem findRef_none (j : List Char) (h : hasOpenMark j = false) : findRef j = none := by
  induction j with
  | nil => rfl
  | cons c t ih =>
    rw [hasOpenMark, Bool.or_eq_false_iff] at h
    rw [findRef, if_neg (by simp [h.1]), ih h.2]

/-- Helper: the search skips opener-free junk and matches at the first
opening delimiter. -/
theorem findRef_skip (j t : List Char) (h : hasOpenMark j = false) :
    findRef (j ++ openMark ++ t) = scanInside t := by
  induction j with
  | nil => simp [findRef, openMark, openMarkAt]
  | cons c j' ih =>
    rw [hasOpenMark, Bool.or_eq_false_iff] at h
    have hop2 : openMarkAt (c :: (j' ++ (openMark ++ t))) = false := by
      match j' with
      | [] => simp [openMarkAt, openMark]
      | [a] => simp [openMarkAt, openMark]
      | a :: b :: t' => simpa [openMarkAt] using h.1
    have ih2 := ih h.2
    simp only [List.cons_append, List.append_assoc] at ih2 ⊢
    rw [findRef.eq_2, if_neg (by simp [hop2])]
    exact ih2

/-- Helper: the non-greedy interior scan stops exactly at the pair's own
closing delimiter when no closer-match starts inside the interior. -/
theorem scanInside_exact (i rest : List Char) (h : insideOk i rest = true) :
    scanInside (i ++ closeMark ++ rest) = some (i, rest) := by
  induction i with
  | nil => simp [scanInside, closeMark, matchCloser, isPySpace]
  | cons c t ih =>
    rw [insideOk, Bool.and_eq_true] at h
    have hmc : matchCloser (c :: (t ++ (closeMark ++ rest))) = none := by
      have h' := Option.isNone_iff_eq_none.1 h.1
      simpa [List.cons_append, List.append_assoc] using h'
    have ih2 := ih h.2
    simp only [List.cons_append, List.append_assoc] at ih2 ⊢
    rw [scanInside.eq_2, hmc, ih2]

/-- Helper: on a well-formed decomposition with enough fuel, the extraction
loop recovers exactly the cleaned interiors, in order. -/
theorem extractLoop_glue (ps : List (List Char × List Char)) :
    ∀ (j : List Char) (fuel : Nat), hasOpenMark j = false → partsWF ps = true →
      (glue j ps).length ≤ fuel →
      extractLoop fuel (glue j ps) = ps.map (fun p => postprocessOneRef p.1) := by
  induction ps with
  | nil =>
    intro j fuel hj _ _
    cases fuel with
    | zero => rfl
    | succ f =>
      rw [extractLoop, show glue j [] = j by simp [glue, glueParts], findRef_none j hj]
      rfl
  | cons p ps ih =>
    intro j fuel hj hwf hfl
    obtain ⟨i, j'⟩ := p
    rw [partsWF, Bool.and_eq_true, Bool.and_eq_true] at hwf
    obtain ⟨⟨h1, h2⟩, h3⟩ := hwf
    rw [Bool.not_eq_eq_eq_not, Bool.not_true] at h2
    have hg : glue j ((i, j') :: ps) = j ++ openMark ++ (i ++ closeMark ++ (j' ++ glueParts ps)) := by
      simp [glue, glueParts]
    cases fuel with
    | zero =>
      exfalso
      rw [hg] at hfl
      simp [openMark, closeMark] at hfl
    | succ f =>
      rw [extractLoop, hg, findRef_skip _ _ hj, scanInside_exact _ _ h1]
      have hlen : (glue j' ps).length ≤ f := by
        rw [hg] at hfl
        simp only [List.length_append, openMark, closeMark, List.length_cons,
          List.length_nil, glue] at hfl ⊢
        omega
      have hrec := ih j' f h2 h3 hlen
      rw [glue] at hrec
      show postprocessOneRef i :: extractLoop f (j' ++ glueParts ps) =
        ((i, j') :: ps).map (fun p => postprocessOneRef p.1)
      rw [hrec, List.map_cons]

/-- Claim C7.  For every plain text decomposing into junk and `N` well-formed
delimiter pairs (no opener in the junk, each interior closed exactly by its
own closing marker), reference recovery returns exactly `N` strings, in
order of appearance, each being the interior cleaned by
`_postprocess_one_ref` (hyphen-newline joins removed, whitespace runs
collapsed to single spaces, ends stripped). -/
theorem claim_c7_recovery_roundtrip (j0 : List Char) (ps : List (List Char × List Char))
    (h0 : hasOpenMark j0 = false) (hwf : partsWF ps = true) :
    extractReferences (glue j0 ps) = ps.map (fun p => postprocessOneRef p.1) ∧
    (extractReferences (glue j0 ps)).length = ps.length := by
  have h := extractLoop_glue ps j0 (glue j0 ps).length h0 hwf le_rfl
  refine ⟨h, ?_⟩
  show (extractLoop (glue j0 ps).length (glue j0 ps)).length = ps.length
  rw [h, List.length_map]

/-- Claim C7 witness: a two-pair text with junk around the pairs, an
embedded hyphen-newline join and ragged interior whitespace recovers exactly
the two cleaned strings in order. -/
theorem claim_c7_witness :
    extractReferences (glue (("junk").toList)
      [((" ab-\ncd  ef ").toList, ("mid").toList),
       (("\ntwo  words\n").toList, ("tail").toList)]) =
      [("abcd ef").toList, ("two words").toList] := by
  have h := (claim_c7_recovery_roundtrip (("junk").toList)
    [((" ab-\ncd  ef ").toList, ("mid").toList),
     (("\ntwo  words\n").toList, ("tail").toList)] (by decide) (by decide)).1
  exact h.trans (by decide)

end ArxivTex
